import Mathlib

/-!
Shallow embedding of the adaptive resampling-and-cropping pipeline of
`src/etl.py` (repository `pkla/laseg`).

Modelling conventions:
* Python machine floats are modelled as exact rationals (`ℚ`); Python ints as
  `ℤ`/`ℕ` (voxel counts are nonnegative, so shapes live in `ℕ` and signed
  intermediate arithmetic in `ℤ`).
* Python `int(x)` (truncation toward zero) is `pyInt`.
* `np.round` (round half to even) is `np_round`.
* Fallible code (Python exceptions) returns `Except EtlError _`.
* The external SimpleITK kernels (interpolation, Otsu thresholding) are out of
  scope per the spec; the foreground bounding box produced by the external
  Otsu + label-shape estimator is passed in as a function `Volume → BBox`
  (the spec describes `estimateForegroundBoundingBox` as a pure function of
  one volume).  The geometric bookkeeping (sizes, spacings, origins, crop
  bounds) is translated from the source.
-/

/-- Python exceptions raised by the translated code paths. -/
inductive EtlError where
  | zeroDivisionError
  | indexError
  | valueError
  | typeError
  deriving DecidableEq

/-- Volume metadata, as carried by a `sitk.Image`: voxel counts per axis
(`GetWidth`/`GetHeight`/`GetDepth`, i.e. `GetSize()` order), physical spacing,
origin and the (flat, 9-entry) direction-cosine tuple.  Voxel content is
handled by the external resampling kernels and is not part of the embedding;
all claims under study are about geometry. -/
structure Volume where
  width : ℕ
  height : ℕ
  depth : ℕ
  spacing : ℚ × ℚ × ℚ
  origin : ℚ × ℚ × ℚ
  direction : List ℚ
  deriving DecidableEq

/-- Foreground bounding box as returned by
`sitk.LabelShapeStatisticsImageFilter.GetBoundingBox`: the first three entries
are the per-axis start indices, the last three the per-axis sizes
(src/etl.py lines 340-345). -/
structure BBox where
  iStart : ℕ
  jStart : ℕ
  kStart : ℕ
  iSpan : ℕ
  jSpan : ℕ
  kSpan : ℕ
  deriving DecidableEq

/-- Python `int(x)` on a float: truncation toward zero. -/
def pyInt (q : ℚ) : ℤ := if 0 ≤ q then ⌊q⌋ else ⌈q⌉

/-- NumPy `np.round`: round half to even (banker's rounding). -/
def np_round (q : ℚ) : ℤ :=
  if q - (⌊q⌋ : ℚ) < 1/2 then ⌊q⌋
  else if 1/2 < q - (⌊q⌋ : ℚ) then ⌊q⌋ + 1
  else if 2 ∣ ⌊q⌋ then ⌊q⌋ else ⌊q⌋ + 1

/-- Length of the Python slice `[a:b]` (step 1) of a sequence of length `n`,
with Python's clamping and negative-index conventions. -/
def sliceLen (n : ℕ) (a b : ℤ) : ℕ :=
  let a' : ℤ := if a < 0 then max 0 ((n : ℤ) + a) else min a (n : ℤ)
  let b' : ℤ := if b < 0 then max 0 ((n : ℤ) + b) else min b (n : ℤ)
  (b' - a').toNat

/-- Ratio selection at the top of the crop loop (src/etl.py lines 323-326):
`if dynamic_bounding_ratios == []` use the fixed ratios, else index
`dynamic_bounding_ratios[i]` (raising `IndexError` when out of range). -/
def select_ratios (fixed : ℚ × ℚ × ℚ) (dyn : List (ℚ × ℚ × ℚ)) (i : ℕ) :
    Except EtlError (ℚ × ℚ × ℚ) :=
  if dyn.isEmpty then .ok fixed
  else
    match dyn.get? i with
    | some r => .ok r
    | none => .error .indexError

/-- Per-axis adaptive crop-ratio tie-break (src/etl.py lines 360-391, the
`i`-axis block; the `j` and `k` blocks are identical up to renaming).
`fgEndFromEnd` is `w_img - (i_start_max + i_span_min)`.  Python's `a / b`
raises `ZeroDivisionError` when `b == 0`, which the guards reproduce. -/
def solve_axis_ratio (extent fgStart fgSpan : ℕ) : Except EtlError ℚ :=
  let fgEndFromEnd : ℤ := (extent : ℤ) - ((fgStart : ℤ) + (fgSpan : ℤ))
  if (fgStart : ℤ) > fgEndFromEnd then
    if (fgStart : ℤ) = 0 then .error .zeroDivisionError
    else .ok (max (((fgEndFromEnd : ℚ) / (fgStart : ℚ)) / 2)
                  (1 - ((fgEndFromEnd : ℚ) / (fgStart : ℚ)) / 2))
  else
    if fgEndFromEnd = 0 then .error .zeroDivisionError
    else .ok (min (((fgStart : ℚ) / (fgEndFromEnd : ℚ)) / 2)
                  (1 - ((fgStart : ℚ) / (fgEndFromEnd : ℚ)) / 2))

/-- The three per-axis tie-breaks of the adaptive solver, evaluated in source
order (width, then height, then length); the first `ZeroDivisionError`
aborts, as in Python. -/
def solve_ratios (bbox : BBox) (w h l : ℕ) : Except EtlError (ℚ × ℚ × ℚ) :=
  match solve_axis_ratio w bbox.iStart bbox.iSpan with
  | .error e => .error e
  | .ok wr =>
    match solve_axis_ratio h bbox.jStart bbox.jSpan with
    | .error e => .error e
    | .ok hr =>
      match solve_axis_ratio l bbox.kStart bbox.kSpan with
      | .error e => .error e
      | .ok lr => .ok (wr, hr, lr)

/-- Per-axis crop bounds (src/etl.py lines 394-402):
`start = int(diff * ratio)`, `end = int(extent - diff * (1 - ratio))` where
`diff = extent - minExtent` (Python int subtraction, so computed in `ℤ`). -/
def crop_axis (extent minExtent : ℕ) (ratio : ℚ) : ℤ × ℤ :=
  let d : ℤ := (extent : ℤ) - (minExtent : ℤ)
  (pyInt ((d : ℚ) * ratio), pyInt ((extent : ℚ) - (d : ℚ) * (1 - ratio)))

/-- One iteration of the crop loop body (src/etl.py lines 321-408) for the
image at index `i`: select the ratios, optionally override them with the
adaptive solver (when `find_dynamic_bounding_ratios` is set), compute the
slice bounds per axis, and return the sliced volume.  The trespass warning of
lines 351-354 is diagnostic output with no semantic effect and is not
modelled; slicing metadata other than the voxel counts is handled by the
external ITK slicing operator. -/
def cropOne (otsu : Volume → BBox) (wMin hMin lMin : ℕ) (fixed : ℚ × ℚ × ℚ)
    (dyn : List (ℚ × ℚ × ℚ)) (findDyn : Bool) (i : ℕ) (img : Volume) :
    Except EtlError Volume :=
  match select_ratios fixed dyn i with
  | .error e => .error e
  | .ok sel =>
    match (if findDyn then solve_ratios (otsu img) img.width img.height img.depth
           else .ok sel) with
    | .error e => .error e
    | .ok r =>
      let wb := crop_axis img.width wMin r.1
      let hb := crop_axis img.height hMin r.2.1
      let lb := crop_axis img.depth lMin r.2.2
      .ok { img with
            width := sliceLen img.width wb.1 wb.2,
            height := sliceLen img.height hb.1 hb.2,
            depth := sliceLen img.depth lb.1 lb.2 }

/-- The volume produced by one crop-loop iteration when the ratio triple in
force is `fixed` (the fixed-ratio path of the loop body, src/etl.py lines
394-407). -/
def crop_fixed_one (wMin hMin lMin : ℕ) (fixed : ℚ × ℚ × ℚ) (img : Volume) :
    Volume :=
  { img with
    width := sliceLen img.width (crop_axis img.width wMin fixed.1).1
      (crop_axis img.width wMin fixed.1).2,
    height := sliceLen img.height (crop_axis img.height hMin fixed.2.1).1
      (crop_axis img.height hMin fixed.2.1).2,
    depth := sliceLen img.depth (crop_axis img.depth lMin fixed.2.2).1
      (crop_axis img.depth lMin fixed.2.2).2 }

/-- The `for i, img in enumerate(imgs)` loop of
`crop_images_to_common_dimensions`, accumulating the cropped volumes in input
order and aborting at the first exception. -/
def crop_loop (otsu : Volume → BBox) (wMin hMin lMin : ℕ) (fixed : ℚ × ℚ × ℚ)
    (dyn : List (ℚ × ℚ × ℚ)) (findDyn : Bool) :
    ℕ → List Volume → Except EtlError (List Volume)
  | _, [] => .ok []
  | i, img :: rest =>
    match cropOne otsu wMin hMin lMin fixed dyn findDyn i img with
    | .error e => .error e
    | .ok v =>
      match crop_loop otsu wMin hMin lMin fixed dyn findDyn (i + 1) rest with
      | .error e => .error e
      | .ok vs => .ok (v :: vs)

/-- One accumulator update of `find_shape_extrema` (src/etl.py lines 248-257):
fold state is `((w_min, h_min, l_min), (w_max, h_max, l_max))`. -/
def shape_extrema_step (acc : (ℕ × ℕ × ℕ) × (ℕ × ℕ × ℕ)) (img : Volume) :
    (ℕ × ℕ × ℕ) × (ℕ × ℕ × ℕ) :=
  ((if img.width < acc.1.1 then img.width else acc.1.1,
    if img.height < acc.1.2.1 then img.height else acc.1.2.1,
    if img.depth < acc.1.2.2 then img.depth else acc.1.2.2),
   (if img.width > acc.2.1 then img.width else acc.2.1,
    if img.height > acc.2.2.1 then img.height else acc.2.2.1,
    if img.depth > acc.2.2.2 then img.depth else acc.2.2.2))

/-- Translation of `find_shape_extrema` (src/etl.py lines 235-259): the
minimum accumulators start at `1000` and the maximum accumulators at `0`. -/
def find_shape_extrema (imgs : List Volume) : (ℕ × ℕ × ℕ) × (ℕ × ℕ × ℕ) :=
  imgs.foldl shape_extrema_step ((1000, 1000, 1000), (0, 0, 0))

/-- Translation of `crop_images_to_common_dimensions` (src/etl.py lines
314-413).  The Python function returns `(new_imgs, dynamic_bounding_ratios)`
when `find_dynamic_bounding_ratios` is true and `new_imgs` alone otherwise;
the embedding always returns the pair, and callers of the
`find_dynamic_bounding_ratios=False` form project out the first component.
Note that the source never appends to `dynamic_bounding_ratios` (the solved
ratios only ever live in the loop-local `width_ratio`/`height_ratio`/
`length_ratio` variables), so the returned list is the argument, unchanged. -/
def crop_images_to_common_dimensions (otsu : Volume → BBox) (imgs : List Volume)
    (fixed_bounding_ratios : ℚ × ℚ × ℚ) (dynamic_bounding_ratios : List (ℚ × ℚ × ℚ))
    (find_dynamic_bounding_ratios : Bool) :
    Except EtlError (List Volume × List (ℚ × ℚ × ℚ)) :=
  let extrema := find_shape_extrema imgs
  match crop_loop otsu extrema.1.1 extrema.1.2.1 extrema.1.2.2
      fixed_bounding_ratios dynamic_bounding_ratios find_dynamic_bounding_ratios
      0 imgs with
  | .error e => .error e
  | .ok vs => .ok (vs, dynamic_bounding_ratios)

/-- Translation of `resample_image` (src/etl.py lines 18-39).  The call
`itk_image.SetOrigin([0, 0, 0])` mutates the caller's image, so the function
is modelled state-passing style: the first component of the result is the
input image after the call, the second the resampled output.  The output size
is `int(np.round(original_size * (original_spacing / out_spacing)))` per axis;
the output carries the target spacing, the (zeroed) input origin and the input
direction.  `is_label` only selects the interpolation kernel (nearest neighbor
vs. B-spline) applied to the voxel content by the external resampler, which is
not part of the geometric model.  Python would raise `ZeroDivisionError` for a
zero target-spacing component; the claims under study assume positive spacing,
and `ℚ` division is total here. -/
def resample_image (itk_image : Volume) (out_spacing : ℚ × ℚ × ℚ)
    (is_label : Bool) : Volume × Volume :=
  let self := { itk_image with origin := ((0 : ℚ), (0 : ℚ), (0 : ℚ)) }
  let _ := is_label
  (self,
   { width := (np_round ((self.width : ℚ) * (self.spacing.1 / out_spacing.1))).toNat,
     height := (np_round ((self.height : ℚ) * (self.spacing.2.1 / out_spacing.2.1))).toNat,
     depth := (np_round ((self.depth : ℚ) * (self.spacing.2.2 / out_spacing.2.2))).toNat,
     spacing := out_spacing,
     origin := self.origin,
     direction := self.direction })

/-- Translation of `resample_image_standardize` (src/etl.py lines 41-56).
Again `SetOrigin([0, 0, 0])` mutates the input, so the result pairs the
mutated input with the output.  The output is resampled onto a reference grid
of exactly `out_size` voxels with implied spacing
`original_size * (original_spacing / out_size)` per axis; the reference
`sitk.Image` keeps its default origin `(0,0,0)` and receives the input's
direction. -/
def resample_image_standardize (itk_image : Volume) (out_size : ℕ × ℕ × ℕ)
    (is_label : Bool) : Volume × Volume :=
  let self := { itk_image with origin := ((0 : ℚ), (0 : ℚ), (0 : ℚ)) }
  let _ := is_label
  (self,
   { width := out_size.1,
     height := out_size.2.1,
     depth := out_size.2.2,
     spacing := ((self.width : ℚ) * (self.spacing.1 / (out_size.1 : ℚ)),
                 (self.height : ℚ) * (self.spacing.2.1 / (out_size.2.1 : ℚ)),
                 (self.depth : ℚ) * (self.spacing.2.2 / (out_size.2.2 : ℚ))),
     origin := ((0 : ℚ), (0 : ℚ), (0 : ℚ)),
     direction := self.direction })

/-- The value computed by `resample_images` (src/etl.py lines 426-438) for its
result list: `resample_image` applied to every input, results in input order
(sequentially for `n_jobs=1`, else via `mp.Pool.imap`, which also preserves
order).  The worker-count dispatch itself is modelled separately by
`resample_images_njobs`. -/
def resample_images (imgs : List Volume) (out_spacing : ℚ × ℚ × ℚ)
    (is_label : Bool) : List Volume :=
  imgs.map (fun img => (resample_image img out_spacing is_label).2)

/-- The value computed by `resample_images_standardize` (src/etl.py lines
441-453), order-preserving as above. -/
def resample_images_standardize (imgs : List Volume) (out_size : ℕ × ℕ × ℕ)
    (is_label : Bool) : List Volume :=
  imgs.map (fun img => (resample_image_standardize img out_size is_label).2)

/-- Execution mode chosen by a worker-count dispatch: the sequential
in-process loop, or a worker pool of the given size. -/
inductive ExecMode where
  | sequential
  | pool (workers : ℕ)
  deriving DecidableEq

/-- Contract of `multiprocessing.Pool(processes=...)` (external library):
`processes=None` means use `cpu_count()` workers; any `processes < 1` raises
`ValueError`. -/
def mp_pool_processes (cpuCount : ℕ) (processes : Option ℤ) :
    Except EtlError ℕ :=
  match processes with
  | none => .ok cpuCount
  | some p => if p < 1 then .error .valueError else .ok p.toNat

/-- Worker-count dispatch of `resample_directory` (src/etl.py lines 159-181).
The validation `if n_jobs == 0 or n_jobs < -1` runs first; for `n_jobs=None`
Python evaluates `None < -1`, which raises `TypeError`.  For any non-`None`
value that survives validation, `if n_jobs is not None or n_jobs == 1` takes
the pool branch, substituting `cpu_count()` for `-1` and clamping values above
`cpu_count()`; the sequential `else` branch is unreachable. -/
def resample_directory_njobs (cpuCount : ℕ) (n_jobs : Option ℤ) :
    Except EtlError ExecMode :=
  match n_jobs with
  | none => .error .typeError
  | some n =>
    if n = 0 ∨ n < -1 then .error .valueError
    else if n = -1 then .ok (.pool cpuCount)
    else if n > (cpuCount : ℤ) then .ok (.pool cpuCount)
    else .ok (.pool n.toNat)

/-- Worker-count dispatch of `resample_images` (src/etl.py lines 426-438):
only `n_jobs == 1` is special-cased to the sequential loop; every other value,
including `0`, `-1` and `None`, is handed to `mp.Pool(processes=n_jobs)`
unvalidated and unclamped (the function's default argument is
`mp.cpu_count() - 1`). -/
def resample_images_njobs (cpuCount : ℕ) (n_jobs : Option ℤ) :
    Except EtlError ExecMode :=
  if n_jobs = some 1 then .ok .sequential
  else
    match mp_pool_processes cpuCount n_jobs with
    | .error e => .error e
    | .ok k => .ok (.pool k)

/-- Result of `resampling_pipeline`: the Python function returns the mask list
alone when `masks_only` is set and the pair `(imgs, masks)` otherwise. -/
inductive PipelineResult where
  | masksOnly (masks : List Volume)
  | imagesAndMasks (imgs masks : List Volume)
  deriving DecidableEq

/-- Translation of `resampling_pipeline` (src/etl.py lines 456-505): resample
mask spacing, crop masks with `find_dynamic_bounding_ratios=True` (receiving
back `bounding_ratios`), resample mask size, optionally stop after masks,
then resample image spacing, crop images passing
`dynamic_bounding_ratios=bounding_ratios`, and resample image size. -/
def resampling_pipeline (otsu : Volume → BBox) (imgs masks : List Volume)
    (out_spacing : ℚ × ℚ × ℚ) (out_size : ℕ × ℕ × ℕ) (masks_only : Bool) :
    Except EtlError PipelineResult :=
  let masks1 := resample_images masks out_spacing true
  match crop_images_to_common_dimensions otsu masks1 (1/2, 1/2, 1/2) [] true with
  | .error e => .error e
  | .ok cropped =>
    let masks2 := cropped.1
    let bounding_ratios := cropped.2
    let masks3 := resample_images_standardize masks2 out_size true
    if masks_only then .ok (.masksOnly masks3)
    else
      let imgs1 := resample_images imgs out_spacing false
      match crop_images_to_common_dimensions otsu imgs1 (1/2, 1/2, 1/2)
          bounding_ratios false with
      | .error e => .error e
      | .ok croppedImgs =>
        let imgs3 := resample_images_standardize croppedImgs.1 out_size false
        .ok (.imagesAndMasks imgs3 masks3)

/-- Identity direction-cosine tuple, as SimpleITK stores it (row-major 3×3). -/
def idDir : List ℚ := [1, 0, 0, 0, 1, 0, 0, 0, 1]

/-- Concrete 10×10×10 unit-spacing volume. -/
def m10 : Volume := ⟨10, 10, 10, (1, 1, 1), (0, 0, 0), idDir⟩

/-- Concrete 6×6×6 unit-spacing volume. -/
def m6 : Volume := ⟨6, 6, 6, (1, 1, 1), (0, 0, 0), idDir⟩

/-- Foreground estimator returning start `(1,1,1)`, span `(3,3,3)` for every
volume (an external-estimator outcome used as a concrete test input). -/
def bbC1 : Volume → BBox := fun _ => ⟨1, 1, 1, 3, 3, 3⟩

/-- Concrete 50×50×50 unit-spacing mask volume. -/
def mask50 : Volume := ⟨50, 50, 50, (1, 1, 1), (0, 0, 0), idDir⟩

/-- Concrete 60×60×60 unit-spacing mask volume. -/
def mask60 : Volume := ⟨60, 60, 60, (1, 1, 1), (0, 0, 0), idDir⟩

/-- Concrete 40×40×40 unit-spacing mask volume. -/
def mask40 : Volume := ⟨40, 40, 40, (1, 1, 1), (0, 0, 0), idDir⟩

/-- Foreground estimator returning start `(10,10,10)`, span `(20,20,20)` for
every volume. -/
def bbC2 : Volume → BBox := fun _ => ⟨10, 10, 10, 20, 20, 20⟩

/-- Degenerate foreground estimator whose bounding box spans the entire
volume on every axis (start `(0,0,0)`, span equal to the shape). -/
def bbFull : Volume → BBox := fun v => ⟨0, 0, 0, v.width, v.height, v.depth⟩

/-- Concrete 8×8×8 unit-spacing volume. -/
def vC3 : Volume := ⟨8, 8, 8, (1, 1, 1), (0, 0, 0), idDir⟩

/-- Arbitrary foreground estimator (never consulted when
`find_dynamic_bounding_ratios` is false). -/
def bbC3 : Volume → BBox := fun _ => ⟨0, 0, 0, 1, 1, 1⟩

/-- Concrete volume whose origin metadata is not at zero. -/
def vC8 : Volume := ⟨12, 12, 12, (1, 1, 1), (5, 5, 5), idDir⟩

/-- Concrete 10×10×10 volume with spacing 2 on every axis. -/
def vC6 : Volume := ⟨10, 10, 10, (2, 2, 2), (0, 0, 0), idDir⟩

/-- Concrete 20×30×40 unit-spacing volume. -/
def vA : Volume := ⟨20, 30, 40, (1, 1, 1), (0, 0, 0), idDir⟩

/-- Concrete 25×15×35 unit-spacing volume. -/
def vB : Volume := ⟨25, 15, 35, (1, 1, 1), (0, 0, 0), idDir⟩

/-- Concrete volume whose extents all exceed the 1000 starting value of the
minimum accumulators of `find_shape_extrema`. -/
def vBig : Volume := ⟨1500, 1500, 1500, (1, 1, 1), (0, 0, 0), idDir⟩

/-- Componentwise-extrema correctness of `find_shape_extrema` on a dataset:
each reported minimum (respectively maximum) is attained by some volume of the
list and bounds every volume of the list. -/
def extrema_correct (imgs : List Volume) : Prop :=
  IsLeast {n | ∃ v ∈ imgs, v.width = n} (find_shape_extrema imgs).1.1
  ∧ IsLeast {n | ∃ v ∈ imgs, v.height = n} (find_shape_extrema imgs).1.2.1
  ∧ IsLeast {n | ∃ v ∈ imgs, v.depth = n} (find_shape_extrema imgs).1.2.2
  ∧ IsGreatest {n | ∃ v ∈ imgs, v.width = n} (find_shape_extrema imgs).2.1
  ∧ IsGreatest {n | ∃ v ∈ imgs, v.height = n} (find_shape_extrema imgs).2.2.1
  ∧ IsGreatest {n | ∃ v ∈ imgs, v.depth = n} (find_shape_extrema imgs).2.2.2

/-- C1: the claim asserts that the mask pass populates the Crop Ratio
side-channel and that the image pass crops index `i` with the mask-derived
ratio at index `i`.  In the source the solved ratios are never appended to
`dynamic_bounding_ratios`, so the mask pass returns an empty side-channel and
the image pass (receiving `[]`) silently falls back to the fixed ratios
`(0.5, 0.5, 0.5)`.  Concretely, for masks of shapes `10³` and `6³` with
foreground boxes at start `(1,1,1)`, span `(3,3,3)`: the mask pass emits `[]`
although the adaptive ratio for mask 0 is `1/12`; cropping `10 → 6` with the
fixed ratio `1/2` yields bounds `(2, 8)` whereas the mask-derived ratio
`1/12` would yield `(0, 6)`; and the full pipeline nevertheless completes
without error. -/
theorem c1_side_channel_bug :
    (crop_images_to_common_dimensions bbC1 [m10, m6] (1/2, 1/2, 1/2) [] true).map
      Prod.snd = .ok []
  ∧ solve_ratios (bbC1 m10) 10 10 10 = .ok (1/12, 1/12, 1/12)
  ∧ crop_axis 10 6 (1/2) = (2, 8)
  ∧ crop_axis 10 6 (1/12) = (0, 6)
  ∧ ((2 : ℤ), (8 : ℤ)) ≠ ((0 : ℤ), (6 : ℤ))
  ∧ (resampling_pipeline bbC1 [m10, m6] [m10, m6] (1, 1, 1) (4, 4, 4)
      false).isOk = true := by
  refine ⟨?_, ?_, ?_, ?_, by decide, ?_⟩ <;>
    norm_num [resampling_pipeline, crop_images_to_common_dimensions, crop_loop,
      cropOne, select_ratios, solve_ratios, solve_axis_ratio, crop_axis, pyInt,
      sliceLen, find_shape_extrema, shape_extrema_step, resample_images,
      resample_image, resample_images_standardize, resample_image_standardize,
      np_round, bbC1, m10, m6, idDir, Except.map, Except.isOk, Except.toBool,
      List.foldl, List.get?, List.isEmpty]

/-- C2: for the three masks of shapes `(50,50,50)`, `(60,60,60)`, `(40,40,40)`
at unit spacing with target spacing equal to the current spacing, the
respacing stage is the identity and the dataset minimum `(40,40,40)` is the
crop target, and every cropped mask has shape `(40,40,40)` (with foreground
boxes at start `(10,10,10)`, span `(20,20,20)`); but the returned Crop Ratio
list is empty (length 0, not 3), because the source never appends the solved
ratios to `dynamic_bounding_ratios`. -/
theorem c2_crop_stage_eval :
    resample_images [mask50, mask60, mask40] (1, 1, 1) true
      = [mask50, mask60, mask40]
  ∧ find_shape_extrema [mask50, mask60, mask40] = ((40, 40, 40), (60, 60, 60))
  ∧ (crop_images_to_common_dimensions bbC2 [mask50, mask60, mask40]
      (1/2, 1/2, 1/2) [] true).map
        (fun r => (r.1.map Volume.width, r.1.map Volume.height,
                   r.1.map Volume.depth, r.2.length))
      = .ok ([40, 40, 40], [40, 40, 40], [40, 40, 40], 0) := by
  refine ⟨?_, ?_, ?_⟩ <;>
    norm_num [crop_images_to_common_dimensions, crop_loop, cropOne,
      select_ratios, solve_ratios, solve_axis_ratio, crop_axis, pyInt, sliceLen,
      find_shape_extrema, shape_extrema_step, resample_images, resample_image,
      np_round, bbC2, mask50, mask60, mask40, idDir, Except.map, List.foldl,
      List.get?, List.isEmpty] <;> simp

/-- C4: for a volume whose foreground bounding box spans the entire volume
(start 0, span equal to the extent), the per-axis tie-break reaches the else
branch with `fgEndFromEnd = 0` and Python evaluates `0 / 0`, raising
`ZeroDivisionError`; the crop stage and the whole pipeline abort on this
input instead of emitting a ratio in `[0,1]`. -/
theorem c4_degenerate_eval :
    solve_axis_ratio 10 0 10 = .error .zeroDivisionError
  ∧ crop_images_to_common_dimensions bbFull [m10] (1/2, 1/2, 1/2) [] true
      = .error .zeroDivisionError
  ∧ resampling_pipeline bbFull [m10] [m10] (1, 1, 1) (4, 4, 4) false
      = .error .zeroDivisionError := by
  refine ⟨?_, ?_, ?_⟩ <;>
    norm_num [resampling_pipeline, crop_images_to_common_dimensions, crop_loop,
      cropOne, select_ratios, solve_ratios, solve_axis_ratio, crop_axis, pyInt,
      sliceLen, find_shape_extrema, shape_extrema_step, resample_images,
      resample_image, np_round, bbFull, m10, idDir, Except.map, List.foldl,
      List.get?, List.isEmpty]

/-- C9: the worker-count contract claimed for the parallel harness fails on
both realizations in the source.  `resample_directory` with `n_jobs=None`
(the documented sequential default) raises `TypeError` from the validation
expression `n_jobs < -1`; `resample_images` performs no validation of its
own, so `n_jobs=-1` raises `ValueError` inside `mp.Pool` instead of using all
execution units, `n_jobs=None` uses a pool of `cpu_count()` workers instead
of running sequentially, and an over-large request is not clamped.  The
remaining parts hold for `resample_directory`: `0` and `-2` are rejected,
`-1` maps to a pool of `cpu_count()` workers, and over-large requests are
clamped to `cpu_count()`. -/
theorem c9_harness_eval : ∀ cpu : ℕ,
    resample_directory_njobs cpu none = .error .typeError
  ∧ resample_directory_njobs cpu (some 0) = .error .valueError
  ∧ resample_directory_njobs cpu (some (-2)) = .error .valueError
  ∧ resample_directory_njobs cpu (some (-1)) = .ok (.pool cpu)
  ∧ resample_directory_njobs cpu (some ((cpu : ℤ) + 1)) = .ok (.pool cpu)
  ∧ resample_images_njobs cpu (some (-1)) = .error .valueError
  ∧ resample_images_njobs cpu none = .ok (.pool cpu)
  ∧ resample_images_njobs cpu (some ((cpu : ℤ) + 5)) = .ok (.pool (cpu + 5)) := by
  intro cpu
  refine ⟨rfl, rfl, rfl, rfl, ?_, rfl, rfl, ?_⟩
  · have h1 : ¬((cpu : ℤ) + 1 = 0 ∨ (cpu : ℤ) + 1 < -1) := by omega
    have h2 : ¬((cpu : ℤ) + 1 = -1) := by omega
    have h3 : (cpu : ℤ) + 1 > (cpu : ℤ) := by omega
    simp only [resample_directory_njobs, if_neg h1, if_neg h2, if_pos h3]
  · have h1 : ¬(some ((cpu : ℤ) + 5) = some 1) := by
      simp only [Option.some.injEq]; omega
    have h2 : ¬((cpu : ℤ) + 5 < 1) := by omega
    have h3 : ((cpu : ℤ) + 5).toNat = cpu + 5 := by omega
    simp only [resample_images_njobs, if_neg h1, mp_pool_processes, if_neg h2, h3]

/-- C3, counterexample: the image-branch crop stage entered with an empty
Crop Ratio side-channel and a non-empty dataset (so the side-channel length
does not match the dataset size) does not fail at all — contradicting the
claimed `MissingCropRatiosError` — and returns the volumes cropped with the
fixed default ratios. -/
theorem c3_counterexample :
    crop_images_to_common_dimensions bbC3 [vC3] (1/2, 1/2, 1/2) [] false
      = .ok ([vC3], [])
  ∧ (crop_images_to_common_dimensions bbC3 [vC3] (1/2, 1/2, 1/2) [] false).isOk
      = true := by
  have h : crop_images_to_common_dimensions bbC3 [vC3] (1/2, 1/2, 1/2) [] false
      = .ok ([vC3], []) := by
    norm_num [crop_images_to_common_dimensions, crop_loop, cropOne,
      select_ratios, crop_axis, pyInt, sliceLen, find_shape_extrema,
      shape_extrema_step, bbC3, vC3, idDir, List.foldl, List.isEmpty]
    simp
  exact ⟨h, by rw [h]; rfl⟩

/-- C5, counterexample: on an axis whose foreground spans the whole extent
(`fgStart = 0`, `fgSpan = extent = 7`, so `fgStart ≤ fgEndFromEnd = 0`), the
claim says the solver emits `min((fgStart/fgEndFromEnd)/2,
1 - (fgStart/fgEndFromEnd)/2)`; the code instead raises `ZeroDivisionError`
and emits nothing. -/
theorem c5_counterexample :
    solve_axis_ratio 7 0 7 = .error .zeroDivisionError
  ∧ (solve_axis_ratio 7 0 7).isOk = false := by
  have h : solve_axis_ratio 7 0 7 = .error .zeroDivisionError := by
    norm_num [solve_axis_ratio]
  exact ⟨h, by rw [h]; rfl⟩

/-- C7, counterexample: cropping extent 10 to target 7 with ratio `1/2` gives
`excess = 3`; the code computes `end = int(10 - 3·(1/2)) = int(8.5) = 8`,
whereas the claimed formula `end = currentExtent - floor(excess·(1-ratio))`
predicts `10 - 1 = 9`. -/
theorem c7_counterexample :
    crop_axis 10 7 (1/2) = (1, 8)
  ∧ (10 : ℤ) - ⌊(((10 - 7 : ℕ) : ℚ)) * (1 - 1/2)⌋ = 9
  ∧ ((1 : ℤ), (8 : ℤ)) ≠ ((1 : ℤ), (9 : ℤ)) := by
  refine ⟨by norm_num [crop_axis, pyInt], by norm_num, by decide⟩

/-- C8, counterexample: `resample_image` and `resample_image_standardize`
execute `itk_image.SetOrigin([0, 0, 0])` on their argument, so an input whose
origin is `(5,5,5)` is no longer equal to itself after either call; the
claimed side-effect-freeness fails. -/
theorem c8_counterexample :
    (resample_image vC8 (1, 1, 1) false).1 ≠ vC8
  ∧ (resample_image_standardize vC8 (64, 64, 64) false).1 ≠ vC8 := by
  constructor <;>
  · intro h
    have h0 := congrArg (fun v => v.origin.1) h
    norm_num [resample_image, resample_image_standardize, vC8] at h0

/-- Truncation toward zero agrees with the floor on nonnegative arguments. -/
theorem pyInt_eq_floor {q : ℚ} (h : 0 ≤ q) : pyInt q = ⌊q⌋ := if_pos h

/-- Banker's rounding of a nonnegative rational is nonnegative. -/
theorem np_round_nonneg {q : ℚ} (h : 0 ≤ q) : 0 ≤ np_round q := by
  have hf : 0 ≤ ⌊q⌋ := Int.floor_nonneg.mpr h
  unfold np_round
  split_ifs <;> omega

/-- C6: for every volume with positive spacing and every positive target
spacing, the respaced volume's voxel count on each axis is
`round(shape * spacing / targetSpacing)`, with `round` the half-to-even
rounding used by `np.round` in the source. -/
theorem c6_resample_to_spacing_shape :
    ∀ (v : Volume) (s : ℚ × ℚ × ℚ) (lab : Bool),
      0 < v.spacing.1 → 0 < v.spacing.2.1 → 0 < v.spacing.2.2 →
      0 < s.1 → 0 < s.2.1 → 0 < s.2.2 →
      (((resample_image v s lab).2.width : ℤ)
          = np_round ((v.width : ℚ) * v.spacing.1 / s.1)
      ∧ ((resample_image v s lab).2.height : ℤ)
          = np_round ((v.height : ℚ) * v.spacing.2.1 / s.2.1)
      ∧ ((resample_image v s lab).2.depth : ℤ)
          = np_round ((v.depth : ℚ) * v.spacing.2.2 / s.2.2)) := by
  intro v s lab h1 h2 h3 h4 h5 h6
  refine ⟨?_, ?_, ?_⟩
  · simp only [resample_image]
    rw [mul_div_assoc]
    exact Int.toNat_of_nonneg
      (np_round_nonneg (mul_nonneg (Nat.cast_nonneg _) (div_pos h1 h4).le))
  · simp only [resample_image]
    rw [mul_div_assoc]
    exact Int.toNat_of_nonneg
      (np_round_nonneg (mul_nonneg (Nat.cast_nonneg _) (div_pos h2 h5).le))
  · simp only [resample_image]
    rw [mul_div_assoc]
    exact Int.toNat_of_nonneg
      (np_round_nonneg (mul_nonneg (Nat.cast_nonneg _) (div_pos h3 h6).le))

/-- C6 witness: a 10×10×10 volume with spacing 2 resampled to spacing 1 has
the claimed axis counts. -/
theorem c6_witness :
    ((resample_image vC6 (1, 1, 1) false).2.width : ℤ)
        = np_round ((vC6.width : ℚ) * vC6.spacing.1 / 1)
  ∧ ((resample_image vC6 (1, 1, 1) false).2.height : ℤ)
        = np_round ((vC6.height : ℚ) * vC6.spacing.2.1 / 1)
  ∧ ((resample_image vC6 (1, 1, 1) false).2.depth : ℤ)
        = np_round ((vC6.depth : ℚ) * vC6.spacing.2.2 / 1) :=
  c6_resample_to_spacing_shape vC6 (1, 1, 1) false (by norm_num [vC6])
    (by norm_num [vC6]) (by norm_num [vC6]) (by norm_num) (by norm_num)
    (by norm_num)

/-- C7, amended: for `target ≤ extent` and `ratio ∈ [0,1]` the crop bounds are
`start = floor(excess*ratio)` and `end = floor(extent - excess*(1-ratio))`
(equivalently `extent - ceil(excess*(1-ratio))`), not
`extent - floor(excess*(1-ratio))` as claimed; the two end formulas coincide
when `excess*(1-ratio)` is an integer, as in the `10 → 6`, `ratio = 0.5`
example, which yields `start = 2`, `end = 8`. -/
theorem c7_amended_thm :
    (∀ (extent target : ℕ) (r : ℚ), target ≤ extent → 0 ≤ r → r ≤ 1 →
      crop_axis extent target r
        = (⌊((extent - target : ℕ) : ℚ) * r⌋,
           ⌊(extent : ℚ) - ((extent - target : ℕ) : ℚ) * (1 - r)⌋))
  ∧ crop_axis 10 6 (1/2) = (2, 8) := by
  constructor
  · intro extent target r ht h0 h1
    have hd : (((extent : ℤ) - (target : ℤ) : ℤ) : ℚ)
        = ((extent - target : ℕ) : ℚ) := by
      push_cast [ht]
      ring
    have hD0 : (0 : ℚ) ≤ ((extent - target : ℕ) : ℚ) := Nat.cast_nonneg _
    have hx : 0 ≤ ((extent - target : ℕ) : ℚ) * r := mul_nonneg hD0 h0
    have hy : 0 ≤ (extent : ℚ) - ((extent - target : ℕ) : ℚ) * (1 - r) := by
      have hle1 : ((extent - target : ℕ) : ℚ) * (1 - r)
          ≤ ((extent - target : ℕ) : ℚ) :=
        mul_le_of_le_one_right hD0 (by linarith)
      have hle2 : ((extent - target : ℕ) : ℚ) ≤ (extent : ℚ) := by
        exact_mod_cast Nat.cast_le.mpr (Nat.sub_le extent target)
      linarith
    simp only [crop_axis, hd]
    rw [pyInt_eq_floor hx, pyInt_eq_floor hy]
  · norm_num [crop_axis, pyInt]

/-- C7 witness: the amended bound formulas instantiated at extent 10, target
6, ratio `1/2`. -/
theorem c7_witness :
    crop_axis 10 6 (1/2)
      = (⌊((10 - 6 : ℕ) : ℚ) * (1/2)⌋,
         ⌊(10 : ℚ) - ((10 - 6 : ℕ) : ℚ) * (1 - 1/2)⌋)
  ∧ crop_axis 10 6 (1/2) = (2, 8) :=
  ⟨c7_amended_thm.1 10 6 (1/2) (by norm_num) (by norm_num) (by norm_num),
   c7_amended_thm.2⟩

/-- C8, amended: both resamplers reset the input volume's origin to zero in
place (`SetOrigin([0,0,0])`); apart from the origin the input is untouched,
and an input whose origin is already zero is returned unchanged. -/
theorem c8_amended_thm :
    ∀ (v : Volume) (sp : ℚ × ℚ × ℚ) (sz : ℕ × ℕ × ℕ) (l₁ l₂ : Bool),
      (resample_image v sp l₁).1 = { v with origin := ((0:ℚ), (0:ℚ), (0:ℚ)) }
    ∧ (resample_image_standardize v sz l₂).1
        = { v with origin := ((0:ℚ), (0:ℚ), (0:ℚ)) }
    ∧ (v.origin = ((0:ℚ), (0:ℚ), (0:ℚ)) →
        (resample_image v sp l₁).1 = v
      ∧ (resample_image_standardize v sz l₂).1 = v) := by
  intro v sp sz l₁ l₂
  refine ⟨rfl, rfl, ?_⟩
  intro h
  have hv : { v with origin := ((0:ℚ), (0:ℚ), (0:ℚ)) } = v := by rw [← h]
  exact ⟨hv, hv⟩

/-- C8 witness: the amended statement instantiated at a concrete volume whose
origin is already zero. -/
theorem c8_witness :
    (resample_image vC6 (1, 1, 1) false).1
      = { vC6 with origin := ((0:ℚ), (0:ℚ), (0:ℚ)) }
  ∧ (resample_image_standardize vC6 (64, 64, 64) false).1
      = { vC6 with origin := ((0:ℚ), (0:ℚ), (0:ℚ)) }
  ∧ (resample_image vC6 (1, 1, 1) false).1 = vC6
  ∧ (resample_image_standardize vC6 (64, 64, 64) false).1 = vC6 := by
  have h := c8_amended_thm vC6 (1, 1, 1) (64, 64, 64) false false
  exact ⟨h.1, h.2.1, (h.2.2 rfl).1, (h.2.2 rfl).2⟩

/-- C5, amended: for a genuine bounding box (`fgStart + fgSpan ≤ extent`), the
solver emits the claimed `max` formula whenever `fgStart > fgEndFromEnd`, and
the claimed `min` formula whenever `fgStart ≤ fgEndFromEnd` and
`fgEndFromEnd > 0`; in the remaining case (`fgStart = fgEndFromEnd = 0`, the
foreground spanning the whole axis) the division is by zero and the solver
raises instead of emitting a ratio. -/
theorem c5_amended_thm :
    ∀ (extent fgStart fgSpan : ℕ), fgStart + fgSpan ≤ extent →
      (((fgStart : ℤ) > (extent : ℤ) - ((fgStart : ℤ) + (fgSpan : ℤ))) →
        solve_axis_ratio extent fgStart fgSpan
          = .ok (max ((((extent : ℚ) - ((fgStart : ℚ) + (fgSpan : ℚ)))
                        / (fgStart : ℚ)) / 2)
                     (1 - (((extent : ℚ) - ((fgStart : ℚ) + (fgSpan : ℚ)))
                        / (fgStart : ℚ)) / 2)))
    ∧ (((fgStart : ℤ) ≤ (extent : ℤ) - ((fgStart : ℤ) + (fgSpan : ℤ))) →
        0 < (extent : ℤ) - ((fgStart : ℤ) + (fgSpan : ℤ)) →
        solve_axis_ratio extent fgStart fgSpan
          = .ok (min (((fgStart : ℚ)
                        / ((extent : ℚ) - ((fgStart : ℚ) + (fgSpan : ℚ)))) / 2)
                     (1 - ((fgStart : ℚ)
                        / ((extent : ℚ) - ((fgStart : ℚ) + (fgSpan : ℚ)))) / 2))) := by
  intro extent fgStart fgSpan hle
  have hcast : (((extent : ℤ) - ((fgStart : ℤ) + (fgSpan : ℤ)) : ℤ) : ℚ)
      = (extent : ℚ) - ((fgStart : ℚ) + (fgSpan : ℚ)) := by push_cast; ring
  constructor
  · intro hgt
    have hnz : ¬((fgStart : ℤ) = 0) := by omega
    simp only [solve_axis_ratio]
    rw [if_pos hgt, if_neg hnz, hcast]
  · intro hle2 hpos
    have hnotgt : ¬((fgStart : ℤ) > (extent : ℤ) - ((fgStart : ℤ) + (fgSpan : ℤ))) :=
      not_lt.mpr hle2
    have hnz : ¬((extent : ℤ) - ((fgStart : ℤ) + (fgSpan : ℤ)) = 0) := by omega
    simp only [solve_axis_ratio]
    rw [if_neg hnotgt, if_neg hnz, hcast]

/-- C5 witness: the two tie-break branches instantiated at concrete valid
bounding boxes (extent 10, start 6, span 2 for the `max` branch; extent 10,
start 2, span 4 for the `min` branch). -/
theorem c5_witness :
    solve_axis_ratio 10 6 2
      = .ok (max ((((10 : ℚ) - ((6 : ℚ) + (2 : ℚ))) / (6 : ℚ)) / 2)
                 (1 - (((10 : ℚ) - ((6 : ℚ) + (2 : ℚ))) / (6 : ℚ)) / 2))
  ∧ solve_axis_ratio 10 2 4
      = .ok (min (((2 : ℚ) / ((10 : ℚ) - ((2 : ℚ) + (4 : ℚ)))) / 2)
                 (1 - ((2 : ℚ) / ((10 : ℚ) - ((2 : ℚ) + (4 : ℚ)))) / 2)) := by
  constructor
  · have h := (c5_amended_thm 10 6 2 (by norm_num)).1 (by norm_num)
    push_cast at h
    exact h
  · have h := (c5_amended_thm 10 2 4 (by norm_num)).2 (by norm_num) (by norm_num)
    push_cast at h
    exact h

/-- With an empty dynamic-ratio list and the solver disabled, one crop-loop
iteration always succeeds and applies the fixed ratios. -/
theorem cropOne_fixed (otsu : Volume → BBox) (wm hm lm : ℕ) (fixed : ℚ × ℚ × ℚ)
    (i : ℕ) (img : Volume) :
    cropOne otsu wm hm lm fixed [] false i img
      = .ok (crop_fixed_one wm hm lm fixed img) := rfl

/-- With an empty dynamic-ratio list and the solver disabled, the crop loop
maps the fixed-ratio crop over the dataset. -/
theorem crop_loop_fixed (otsu : Volume → BBox) (wm hm lm : ℕ)
    (fixed : ℚ × ℚ × ℚ) :
    ∀ (imgs : List Volume) (i : ℕ),
      crop_loop otsu wm hm lm fixed [] false i imgs
        = .ok (imgs.map (crop_fixed_one wm hm lm fixed)) := by
  intro imgs
  induction imgs with
  | nil => intro i; rfl
  | cons v rest ih =>
    intro i
    simp only [crop_loop, cropOne_fixed, ih (i + 1), List.map_cons]

/-- With a nonempty dynamic-ratio list shorter than the remaining dataset and
the solver disabled, the crop loop aborts with `IndexError` at the first index
beyond the list. -/
theorem crop_loop_index_error (otsu : Volume → BBox) (wm hm lm : ℕ)
    (fixed : ℚ × ℚ × ℚ) (dyn : List (ℚ × ℚ × ℚ)) (hd : dyn ≠ []) :
    ∀ (imgs : List Volume) (i : ℕ), 0 < imgs.length →
      dyn.length < i + imgs.length →
      crop_loop otsu wm hm lm fixed dyn false i imgs = .error .indexError := by
  have hemp : ¬(dyn.isEmpty = true) := by
    simpa [List.isEmpty_iff] using hd
  intro imgs
  induction imgs with
  | nil => intro i h0 _; exact absurd h0 (by simp)
  | cons v rest ih =>
    intro i _ hlen
    by_cases hi : dyn.length ≤ i
    · have hsel : select_ratios fixed dyn i = .error .indexError := by
        simp only [select_ratios]
        rw [if_neg hemp, List.get?_eq_none.mpr hi]
      simp only [crop_loop, cropOne, hsel]
    · push_neg at hi
      have hsel : select_ratios fixed dyn i = .ok (dyn.get ⟨i, hi⟩) := by
        simp only [select_ratios]
        rw [if_neg hemp, List.get?_eq_get hi]
      have hrest : 0 < rest.length := by
        simp only [List.length_cons] at hlen
        omega
      simp [crop_loop, cropOne, hsel, ih (i + 1) hrest
        (by simp only [List.length_cons] at hlen ⊢; omega)]

/-- C3, amended: an image-branch crop entered with an empty Crop Ratio
side-channel does not fail; it silently substitutes the caller's fixed ratios
(the `(0.5, 0.5, 0.5)` default) at every index.  A nonempty side-channel
shorter than the dataset aborts with an `IndexError` from the list indexing,
not a dedicated missing-ratios error. -/
theorem c3_amended_thm :
    (∀ (otsu : Volume → BBox) (imgs : List Volume) (fixed : ℚ × ℚ × ℚ),
      crop_images_to_common_dimensions otsu imgs fixed [] false
        = .ok (imgs.map (crop_fixed_one (find_shape_extrema imgs).1.1
            (find_shape_extrema imgs).1.2.1 (find_shape_extrema imgs).1.2.2
            fixed), []))
  ∧ (∀ (otsu : Volume → BBox) (imgs : List Volume) (fixed : ℚ × ℚ × ℚ)
      (dyn : List (ℚ × ℚ × ℚ)), dyn ≠ [] → dyn.length < imgs.length →
      crop_images_to_common_dimensions otsu imgs fixed dyn false
        = .error .indexError) := by
  constructor
  · intro otsu imgs fixed
    simp only [crop_images_to_common_dimensions, crop_loop_fixed]
  · intro otsu imgs fixed dyn hd hlen
    have h0 : 0 < imgs.length := by
      have := List.length_pos.mpr hd
      omega
    simp only [crop_images_to_common_dimensions,
      crop_loop_index_error otsu _ _ _ fixed dyn hd imgs 0 h0 (by omega)]

/-- C3 amended-theorem witness: on a concrete two-volume dataset a one-entry
side-channel aborts with `IndexError`, and on a concrete one-volume dataset an
empty side-channel succeeds with the fixed-ratio crop. -/
theorem c3_amended_witness :
    crop_images_to_common_dimensions bbC3 [vC3, vC3] (1/2, 1/2, 1/2)
      [(1/3, 1/3, 1/3)] false = .error .indexError
  ∧ crop_images_to_common_dimensions bbC3 [vC3] (1/2, 1/2, 1/2) [] false
      = .ok ([vC3].map (crop_fixed_one (find_shape_extrema [vC3]).1.1
          (find_shape_extrema [vC3]).1.2.1 (find_shape_extrema [vC3]).1.2.2
          (1/2, 1/2, 1/2)), []) :=
  ⟨c3_amended_thm.2 bbC3 [vC3, vC3] (1/2, 1/2, 1/2) [(1/3, 1/3, 1/3)]
      (by simp) (by simp),
   c3_amended_thm.1 bbC3 [vC3] (1/2, 1/2, 1/2)⟩

/-- The simultaneous six-accumulator fold of `find_shape_extrema` decomposes
into six independent scalar folds. -/
theorem foldl_extrema_components :
    ∀ (imgs : List Volume) (acc : (ℕ × ℕ × ℕ) × (ℕ × ℕ × ℕ)),
      imgs.foldl shape_extrema_step acc
        = ((imgs.foldl (fun a v => if v.width < a then v.width else a) acc.1.1,
            imgs.foldl (fun a v => if v.height < a then v.height else a) acc.1.2.1,
            imgs.foldl (fun a v => if v.depth < a then v.depth else a) acc.1.2.2),
           (imgs.foldl (fun a v => if v.width > a then v.width else a) acc.2.1,
            imgs.foldl (fun a v => if v.height > a then v.height else a) acc.2.2.1,
            imgs.foldl (fun a v => if v.depth > a then v.depth else a) acc.2.2.2)) := by
  intro imgs
  induction imgs with
  | nil => intro acc; rfl
  | cons v rest ih =>
    intro acc
    simp only [List.foldl_cons]
    rw [ih]
    rfl

/-- Reachability and bounding for a running-minimum fold: the result is the
initial accumulator or some list element, is at most the initial accumulator,
and is at most every element. -/
theorem min_fold_spec (f : Volume → ℕ) :
    ∀ (l : List Volume) (a : ℕ),
      (l.foldl (fun acc v => if f v < acc then f v else acc) a = a
        ∨ ∃ v ∈ l, l.foldl (fun acc v => if f v < acc then f v else acc) a = f v)
    ∧ l.foldl (fun acc v => if f v < acc then f v else acc) a ≤ a
    ∧ ∀ v ∈ l, l.foldl (fun acc v => if f v < acc then f v else acc) a ≤ f v := by
  intro l
  induction l with
  | nil => intro a; exact ⟨.inl rfl, le_refl a, by simp⟩
  | cons w rest ih =>
    intro a
    simp only [List.foldl_cons]
    obtain ⟨hreach, hle, hbound⟩ := ih (if f w < a then f w else a)
    have ha'le : (if f w < a then f w else a) ≤ a := by split_ifs <;> omega
    have ha'w : (if f w < a then f w else a) ≤ f w := by split_ifs <;> omega
    refine ⟨?_, le_trans hle ha'le, ?_⟩
    · rcases hreach with h | ⟨v, hv, hveq⟩
      · by_cases hw : f w < a
        · right
          exact ⟨w, List.mem_cons_self _ _, by rw [h, if_pos hw]⟩
        · left
          rw [h, if_neg hw]
      · right
        exact ⟨v, List.mem_cons_of_mem _ hv, hveq⟩
    · intro v hv
      rcases List.mem_cons.mp hv with h | h
      · rw [h]
        exact le_trans hle ha'w
      · exact hbound v h

/-- Reachability and bounding for a running-maximum fold. -/
theorem max_fold_spec (f : Volume → ℕ) :
    ∀ (l : List Volume) (a : ℕ),
      (l.foldl (fun acc v => if f v > acc then f v else acc) a = a
        ∨ ∃ v ∈ l, l.foldl (fun acc v => if f v > acc then f v else acc) a = f v)
    ∧ a ≤ l.foldl (fun acc v => if f v > acc then f v else acc) a
    ∧ ∀ v ∈ l, f v ≤ l.foldl (fun acc v => if f v > acc then f v else acc) a := by
  intro l
  induction l with
  | nil => intro a; exact ⟨.inl rfl, le_refl a, by simp⟩
  | cons w rest ih =>
    intro a
    simp only [List.foldl_cons]
    obtain ⟨hreach, hle, hbound⟩ := ih (if f w > a then f w else a)
    have ha'le : a ≤ (if f w > a then f w else a) := by split_ifs <;> omega
    have ha'w : f w ≤ (if f w > a then f w else a) := by split_ifs <;> omega
    refine ⟨?_, le_trans ha'le hle, ?_⟩
    · rcases hreach with h | ⟨v, hv, hveq⟩
      · by_cases hw : f w > a
        · right
          exact ⟨w, List.mem_cons_self _ _, by rw [h, if_pos hw]⟩
        · left
          rw [h, if_neg hw]
      · right
        exact ⟨v, List.mem_cons_of_mem _ hv, hveq⟩
    · intro v hv
      rcases List.mem_cons.mp hv with h | h
      · rw [h]
        exact le_trans ha'w hle
      · exact hbound v h

/-- On a nonempty dataset whose values do not exceed the 1000 seed, the
running-minimum fold computes the least attained value. -/
theorem min_component_least (f : Volume → ℕ) (imgs : List Volume)
    (hne : imgs ≠ []) (hb : ∀ v ∈ imgs, f v ≤ 1000) :
    IsLeast {n | ∃ v ∈ imgs, f v = n}
      (imgs.foldl (fun acc v => if f v < acc then f v else acc) 1000) := by
  obtain ⟨hreach, hle, hbound⟩ := min_fold_spec f imgs 1000
  constructor
  · rcases hreach with h | ⟨v, hv, hveq⟩
    · obtain ⟨v₀, hv₀⟩ : ∃ v, v ∈ imgs := by
        cases imgs with
        | nil => exact absurd rfl hne
        | cons x xs => exact ⟨x, List.mem_cons_self x xs⟩
      have h1 := hbound v₀ hv₀
      have h2 := hb v₀ hv₀
      exact ⟨v₀, hv₀, by omega⟩
    · exact ⟨v, hv, hveq.symm⟩
  · rintro b ⟨v, hv, rfl⟩
    exact hbound v hv

/-- On a nonempty dataset, the running-maximum fold seeded with 0 computes the
greatest attained value. -/
theorem max_component_greatest (f : Volume → ℕ) (imgs : List Volume)
    (hne : imgs ≠ []) :
    IsGreatest {n | ∃ v ∈ imgs, f v = n}
      (imgs.foldl (fun acc v => if f v > acc then f v else acc) 0) := by
  obtain ⟨hreach, _, hbound⟩ := max_fold_spec f imgs 0
  constructor
  · rcases hreach with h | ⟨v, hv, hveq⟩
    · obtain ⟨v₀, hv₀⟩ : ∃ v, v ∈ imgs := by
        cases imgs with
        | nil => exact absurd rfl hne
        | cons x xs => exact ⟨x, List.mem_cons_self x xs⟩
      have h1 := hbound v₀ hv₀
      exact ⟨v₀, hv₀, by omega⟩
    · exact ⟨v, hv, hveq.symm⟩
  · rintro b ⟨v, hv, rfl⟩
    exact hbound v hv

/-- C10: `find_shape_extrema` returns `((1000,1000,1000), (0,0,0))` on the
empty list; on a nonempty list all of whose axis extents are at most 1000 it
computes the componentwise minimum and maximum of the shapes; and when every
width exceeds 1000 the reported width minimum is the 1000 seed rather than the
true minimum (the analogous facts for the other axes hold by the same
symmetric argument). -/
theorem c10_extrema :
    find_shape_extrema [] = ((1000, 1000, 1000), (0, 0, 0))
  ∧ (∀ imgs : List Volume, imgs ≠ [] →
      (∀ v ∈ imgs, v.width ≤ 1000 ∧ v.height ≤ 1000 ∧ v.depth ≤ 1000) →
      extrema_correct imgs)
  ∧ (∀ imgs : List Volume, (∀ v ∈ imgs, 1000 < v.width) →
      (find_shape_extrema imgs).1.1 = 1000) := by
  refine ⟨rfl, ?_, ?_⟩
  · intro imgs hne hb
    unfold extrema_correct find_shape_extrema
    simp only [foldl_extrema_components]
    exact ⟨min_component_least Volume.width imgs hne (fun v hv => (hb v hv).1),
      min_component_least Volume.height imgs hne (fun v hv => (hb v hv).2.1),
      min_component_least Volume.depth imgs hne (fun v hv => (hb v hv).2.2),
      max_component_greatest Volume.width imgs hne,
      max_component_greatest Volume.height imgs hne,
      max_component_greatest Volume.depth imgs hne⟩
  · intro imgs hb
    unfold find_shape_extrema
    simp only [foldl_extrema_components]
    obtain ⟨hreach, hle, hbound⟩ := min_fold_spec Volume.width imgs 1000
    rcases hreach with h | ⟨v, hv, hveq⟩
    · exact h
    · have := hb v hv
      omega

/-- C10 witness: the extrema characterization instantiated on a concrete
two-volume dataset, and the 1000 seed reported as the width minimum for a
concrete dataset whose widths all exceed 1000. -/
theorem c10_witness :
    extrema_correct [vA, vB] ∧ (find_shape_extrema [vBig]).1.1 = 1000 :=
  ⟨c10_extrema.2.1 [vA, vB] (by simp) (by decide),
   c10_extrema.2.2 [vBig] (by decide)⟩
